import Mathlib

/-!
Verification of the proxy subsystem of the `enemy` IRC clone tool.

The definitions below are a shallow embedding of the C sources
`proxy.c` (timeout-aware variant: `safe_read_with_timeout`,
`safe_write_with_timeout`, `parse_proxy_line`, `load_proxies`,
`next_proxy`, `socks4_connect`, `socks5_connect`, `http_connect`) and
`proxy_loader.c` (threaded validator: `proxy_validator_worker`,
`check_and_validate_proxies`, `save_validated_proxies`, `open_proxy_socket`).

Wire data is modelled as `List Nat` (byte values), text as `List Char`.
Machine integers stay in `Nat`/`Int`; stores into `unsigned char` are
taken modulo 256 where the C program narrows.  Socket I/O is modelled by
explicit traces: a list of per-loop-iteration events describing what
`select`/`poll` and the subsequent syscall did, so that elapsed wall
time of the waiting loops can be computed.  Name resolution
(`getaddrinfo`) is an oracle parameter.
-/

namespace Enemy

/-- The `enum proxy_type` of command.h. -/
inductive ProxyType
  | NONE
  | HTTP
  | HTTPS
  | SOCKS4
  | SOCKS5
deriving DecidableEq

/-- The `struct proxy_t` of command.h.  Strings owned by the record are
`List Char`; `username`/`password` are `Option` to model NULL pointers.
The resolved socket address is reduced to the address family, which is
all the verified claims inspect. -/
structure Proxy where
  host : List Char
  port : Nat
  username : Option (List Char) := Option.none
  password : Option (List Char) := Option.none
  ptype : ProxyType := ProxyType.NONE
  detected_type : ProxyType := ProxyType.NONE
  is_ipv6 : Bool := false
  is_active : Bool := false
  has_auth : Bool := false
  validated : Bool := false
  last_rtt_ms : Nat := 0
deriving DecidableEq

/-! ## Framed timed I/O (`safe_read_with_timeout` / `safe_write_with_timeout`)

Each iteration of the C loop performs one `select` with `tv.tv_sec`
reset to the full `timeout_sec` argument, then (when `select` reports
readiness) one `read`/`write` syscall.  An `RWEvent` records the outcome
of one such iteration: how long the `select` blocked (in milliseconds)
and what the subsequent syscall returned.  Timeouts are scaled to
milliseconds (the C functions are called with `timeout_sec = 10`,
modelled as `10000`). -/

/-- Result of the `read`/`write` syscall in one loop iteration. -/
inductive SysRes
  | bytes (n : Nat)
  | closed
  | again
  | fail
deriving DecidableEq

/-- Outcome of one iteration of the `safe_*_with_timeout` loop. -/
inductive RWEvent
  | selErrIntr (w : Nat)
  | selErr (w : Nat)
  | selTimeout
  | ready (w : Nat) (r : SysRes)
deriving DecidableEq

/-- Milliseconds the `select` of this iteration blocked before
returning (a `selTimeout` blocks for the timeout argument itself, which
is accounted in the run functions). -/
def RWEvent.wait : RWEvent → Nat
  | RWEvent.selErrIntr w => w
  | RWEvent.selErr w => w
  | RWEvent.ready w _ => w
  | RWEvent.selTimeout => 0

/-- A trace is feasible for per-poll timeout `t` when no single
`select` blocked longer than the timeout it was called with.  In the C
code every `select` is called with the full original timeout. -/
def rwWF (t : Nat) (evs : List RWEvent) : Prop :=
  ∀ e ∈ evs, RWEvent.wait e ≤ t

instance (t : Nat) (evs : List RWEvent) : Decidable (rwWF t evs) :=
  List.decidableBAll _ evs

/-- `safe_read_with_timeout` (proxy.c:951-989): loops until `count`
bytes are accumulated; every iteration a fresh `select` bounded by the
full `timeoutMs`, then a `read`.  Returns the C return value and the
total milliseconds spent blocking. -/
def safeReadRun (count timeoutMs : Nat) : Nat → Nat → List RWEvent → Int × Nat
  | total, elapsed, [] =>
      if count ≤ total then (Int.ofNat total, elapsed) else (-1, elapsed)
  | total, elapsed, e :: evs =>
      if count ≤ total then (Int.ofNat total, elapsed)
      else
        match e with
        | RWEvent.selErrIntr w => safeReadRun count timeoutMs total (elapsed + w) evs
        | RWEvent.selErr w => (-1, elapsed + w)
        | RWEvent.selTimeout => (-1, elapsed + timeoutMs)
        | RWEvent.ready w r =>
          match r with
          | SysRes.bytes n => safeReadRun count timeoutMs (total + n) (elapsed + w) evs
          | SysRes.closed =>
              if 0 < total then (Int.ofNat total, elapsed + w) else (-1, elapsed + w)
          | SysRes.again => safeReadRun count timeoutMs total (elapsed + w) evs
          | SysRes.fail => (-1, elapsed + w)

/-- `safe_write_with_timeout` (proxy.c:991-1029): identical loop shape;
a zero-byte `write` is an error regardless of progress. -/
def safeWriteRun (count timeoutMs : Nat) : Nat → Nat → List RWEvent → Int × Nat
  | total, elapsed, [] =>
      if count ≤ total then (Int.ofNat total, elapsed) else (-1, elapsed)
  | total, elapsed, e :: evs =>
      if count ≤ total then (Int.ofNat total, elapsed)
      else
        match e with
        | RWEvent.selErrIntr w => safeWriteRun count timeoutMs total (elapsed + w) evs
        | RWEvent.selErr w => (-1, elapsed + w)
        | RWEvent.selTimeout => (-1, elapsed + timeoutMs)
        | RWEvent.ready w r =>
          match r with
          | SysRes.bytes n => safeWriteRun count timeoutMs (total + n) (elapsed + w) evs
          | SysRes.closed => (-1, elapsed + w)
          | SysRes.again => safeWriteRun count timeoutMs total (elapsed + w) evs
          | SysRes.fail => (-1, elapsed + w)

/-- Helper: each loop iteration of `safe_read_with_timeout` adds at most
the full per-poll timeout to the elapsed time, so the total blocking
time is bounded by the timeout times the number of iterations. -/
theorem safeReadRun_elapsed_le (count timeoutMs : Nat) :
    ∀ (evs : List RWEvent) (total elapsed : Nat), rwWF timeoutMs evs →
      (safeReadRun count timeoutMs total elapsed evs).2 ≤
        elapsed + timeoutMs * evs.length := by
  intro evs
  induction evs with
  | nil =>
      intro total elapsed _
      simp only [safeReadRun]
      split <;> simp
  | cons e evs ih =>
      intro total elapsed hwf
      have hwf_tail : rwWF timeoutMs evs := fun x hx => hwf x (List.mem_cons_of_mem _ hx)
      have hw : RWEvent.wait e ≤ timeoutMs := hwf e (List.mem_cons_self _ _)
      simp only [safeReadRun]
      split
      · simp only [List.length_cons]
        nlinarith [Nat.zero_le (timeoutMs * evs.length)]
      · cases e with
        | selErrIntr w =>
            have := ih (total) (elapsed + w) hwf_tail
            simp only [RWEvent.wait] at hw
            simp only [List.length_cons, Nat.mul_succ]
            omega
        | selErr w =>
            simp only [RWEvent.wait] at hw
            simp only [List.length_cons, Nat.mul_succ]
            omega
        | selTimeout =>
            simp only [List.length_cons, Nat.mul_succ]
            omega
        | ready w r =>
            simp only [RWEvent.wait] at hw
            cases r with
            | bytes n =>
                have := ih (total + n) (elapsed + w) hwf_tail
                simp only [List.length_cons, Nat.mul_succ]
                omega
            | closed =>
                simp only [List.length_cons, Nat.mul_succ]
                split <;> omega
            | again =>
                have := ih total (elapsed + w) hwf_tail
                simp only [List.length_cons, Nat.mul_succ]
                omega
            | fail =>
                simp only [List.length_cons, Nat.mul_succ]
                omega

/-- Helper used later: the same per-iteration bound for `safe_write_with_timeout`. -/
theorem safeWriteRun_elapsed_le (count timeoutMs : Nat) :
    ∀ (evs : List RWEvent) (total elapsed : Nat), rwWF timeoutMs evs →
      (safeWriteRun count timeoutMs total elapsed evs).2 ≤
        elapsed + timeoutMs * evs.length := by
  intro evs
  induction evs with
  | nil =>
      intro total elapsed _
      simp only [safeWriteRun]
      split <;> simp
  | cons e evs ih =>
      intro total elapsed hwf
      have hwf_tail : rwWF timeoutMs evs := fun x hx => hwf x (List.mem_cons_of_mem _ hx)
      have hw : RWEvent.wait e ≤ timeoutMs := hwf e (List.mem_cons_self _ _)
      simp only [safeWriteRun]
      split
      · simp only [List.length_cons]
        nlinarith [Nat.zero_le (timeoutMs * evs.length)]
      · cases e with
        | selErrIntr w =>
            have := ih (total) (elapsed + w) hwf_tail
            simp only [RWEvent.wait] at hw
            simp only [List.length_cons, Nat.mul_succ]
            omega
        | selErr w =>
            simp only [RWEvent.wait] at hw
            simp only [List.length_cons, Nat.mul_succ]
            omega
        | selTimeout =>
            simp only [List.length_cons, Nat.mul_succ]
            omega
        | ready w r =>
            simp only [RWEvent.wait] at hw
            cases r with
            | bytes n =>
                have := ih (total + n) (elapsed + w) hwf_tail
                simp only [List.length_cons, Nat.mul_succ]
                omega
            | closed =>
                simp only [List.length_cons, Nat.mul_succ]
                omega
            | again =>
                have := ih total (elapsed + w) hwf_tail
                simp only [List.length_cons, Nat.mul_succ]
                omega
            | fail =>
                simp only [List.length_cons, Nat.mul_succ]
                omega

/-- Claim C1, counterexample.  The code resets the `select` timeout to
the full original timeout on every loop iteration, so a feasible trace
in which the peer trickles one byte per poll makes a single
`safe_read_with_timeout` call block for longer than the timeout: with
`t = 10000` ms and two polls of 9000 ms each delivering one byte each,
the call succeeds after 18000 ms of blocking. -/
theorem safe_read_exceeds_total_budget_cex :
    rwWF 10000 [RWEvent.ready 9000 (SysRes.bytes 1), RWEvent.ready 9000 (SysRes.bytes 1)] ∧
    safeReadRun 2 10000 0 0
      [RWEvent.ready 9000 (SysRes.bytes 1), RWEvent.ready 9000 (SysRes.bytes 1)] =
      (2, 18000) ∧
    ¬ (safeReadRun 2 10000 0 0
      [RWEvent.ready 9000 (SysRes.bytes 1), RWEvent.ready 9000 (SysRes.bytes 1)]).2 ≤ 10000 := by
  refine ⟨?_, by decide, by decide⟩
  decide

/-- Claim C1, amended.  Each readiness poll of
`safe_read_with_timeout` / `safe_write_with_timeout` is bounded by the
ORIGINAL timeout `t`, which is reset in full before every poll; hence
the total blocking time of one call is bounded by `t` times the number
of loop iterations, and may exceed `t` when the peer trickles data. -/
theorem safe_io_poll_bounded_per_iteration (count timeoutMs : Nat)
    (evsR evsW : List RWEvent)
    (hR : rwWF timeoutMs evsR) (hW : rwWF timeoutMs evsW) :
    (safeReadRun count timeoutMs 0 0 evsR).2 ≤ timeoutMs * evsR.length ∧
    (safeWriteRun count timeoutMs 0 0 evsW).2 ≤ timeoutMs * evsW.length := by
  constructor
  · simpa using safeReadRun_elapsed_le count timeoutMs evsR 0 0 hR
  · simpa using safeWriteRun_elapsed_le count timeoutMs evsW 0 0 hW

/-- Witness for the amended C1 theorem at a concrete trace. -/
theorem safe_io_poll_bounded_per_iteration_witness :
    (safeReadRun 8 10000 0 0 [RWEvent.selTimeout]).2 ≤ 10000 * 1 ∧
    (safeWriteRun 3 10000 0 0 [RWEvent.ready 5 (SysRes.bytes 3)]).2 ≤ 10000 * 1 :=
  safe_io_poll_bounded_per_iteration 8 10000 [RWEvent.selTimeout]
    [RWEvent.ready 5 (SysRes.bytes 3)] (by decide) (by decide)

/-! ## The pool (`struct xaddress_t` proxy fields) and `next_proxy`

The intrusive doubly-linked list with `proxy_list` / `proxy_tail` /
`current_proxy` pointers is modelled as a `List Proxy` with the cursor
as an optional index (`current = Option.none` models
`current_proxy == NULL`; the tail pointer is the last list element). -/

/-- The proxy-related fields of the global `xconnect` state. -/
structure Pool where
  proxy_list : List Proxy := []
  current : Option Nat := Option.none
  proxy_count : Nat := 0
  proxy_file : Option (List Char) := Option.none
  proxy_default_type : ProxyType := ProxyType.NONE
deriving DecidableEq

/-- The index the round-robin cursor moves to on one `next_proxy`
call: head when the cursor is unset or at the tail
(`!current_proxy->next`), else the successor. -/
def nextCursor (P : Pool) : Nat :=
  match P.current with
  | Option.none => 0
  | some i => if i + 1 < P.proxy_list.length then i + 1 else 0

/-- `next_proxy` (proxy.c:938-949): empty list yields NULL; otherwise
the cursor advances per `nextCursor` and the proxy at the new cursor is
returned. -/
def next_proxy (P : Pool) : Pool × Option Proxy :=
  if P.proxy_list.isEmpty then (P, Option.none)
  else ({ P with current := some (nextCursor P) }, P.proxy_list.get? (nextCursor P))

/-- Helper: `next_proxy` never changes the list of proxies. -/
theorem next_proxy_list (P : Pool) : (next_proxy P).1.proxy_list = P.proxy_list := by
  unfold next_proxy
  split <;> rfl

/-- Helper: on a nonempty list the new cursor is in range. -/
theorem nextCursor_lt (P : Pool) (h : P.proxy_list ≠ []) :
    nextCursor P < P.proxy_list.length := by
  have hpos : 0 < P.proxy_list.length := List.length_pos.mpr h
  unfold nextCursor
  rcases P.current with _ | i
  · exact hpos
  · dsimp only
    split
    · assumption
    · exact hpos

/-- Claim C2.  On a pool in the state left by a validation sweep (every
remaining proxy validated and active), `next_proxy` returns a
validated, active member, advancing the cursor to the successor and
wrapping from the tail to the head, and returns NULL exactly when no
(active) entry exists.  Nothing is skipped because a post-validation
pool contains no inactive entry. -/
theorem next_proxy_post_validation (P : Pool)
    (hall : ∀ p ∈ P.proxy_list, p.validated = true ∧ p.is_active = true) :
    ((next_proxy P).2 = Option.none ↔ P.proxy_list = []) ∧
    (∀ p, (next_proxy P).2 = some p →
      p ∈ P.proxy_list ∧ p.validated = true ∧ p.is_active = true) ∧
    (P.proxy_list ≠ [] → P.current = Option.none →
      (next_proxy P).2 = P.proxy_list.get? 0) ∧
    (∀ i, P.current = some i → i + 1 < P.proxy_list.length →
      (next_proxy P).2 = P.proxy_list.get? (i + 1)) ∧
    (∀ i, P.proxy_list ≠ [] → P.current = some i → ¬ i + 1 < P.proxy_list.length →
      (next_proxy P).2 = P.proxy_list.get? 0) := by
  by_cases hE : P.proxy_list.isEmpty
  · have hnil : P.proxy_list = [] := List.isEmpty_iff.mp hE
    refine ⟨by simp [next_proxy, hE, hnil], ?_, ?_, ?_, ?_⟩
    · intro p hp
      simp [next_proxy, hE] at hp
    · intro hne _
      exact absurd hnil hne
    · intro i _ hilt
      rw [hnil] at hilt
      simp at hilt
    · intro i hne _ _
      exact absurd hnil hne
  · have hne : P.proxy_list ≠ [] := fun h => hE (by simp [h])
    have hlt : nextCursor P < P.proxy_list.length := nextCursor_lt P hne
    have h2 : (next_proxy P).2 = P.proxy_list.get? (nextCursor P) := by
      unfold next_proxy
      rw [if_neg hE]
    have hsome : P.proxy_list.get? (nextCursor P) =
        some (P.proxy_list.get ⟨nextCursor P, hlt⟩) := List.get?_eq_get hlt
    refine ⟨⟨?_, fun h => absurd h hne⟩, ?_, ?_, ?_, ?_⟩
    · intro hnone
      rw [h2, hsome] at hnone
      exact absurd hnone (Option.some_ne_none _)
    · intro p hp
      rw [h2] at hp
      have hmem : p ∈ P.proxy_list := List.get?_mem hp
      exact ⟨hmem, (hall p hmem).1, (hall p hmem).2⟩
    · intro _ hcur
      rw [h2]
      have : nextCursor P = 0 := by
        unfold nextCursor
        rw [hcur]
      rw [this]
    · intro i hcur hilt
      rw [h2]
      have : nextCursor P = i + 1 := by
        unfold nextCursor
        rw [hcur]
        exact if_pos hilt
      rw [this]
    · intro i _ hcur hilt
      rw [h2]
      have : nextCursor P = 0 := by
        unfold nextCursor
        rw [hcur]
        exact if_neg hilt
      rw [this]

/-- A concrete validated, active proxy used by witnesses. -/
def sampleActiveProxy : Proxy :=
  { host := ['h'], port := 1, validated := true, is_active := true }

/-- A concrete one-element post-validation pool used by witnesses. -/
def samplePool : Pool := { proxy_list := [sampleActiveProxy] }

/-- Witness for the C2 theorem at a concrete one-element pool. -/
theorem next_proxy_post_validation_witness :
    ((next_proxy samplePool).2 = Option.none ↔ samplePool.proxy_list = []) ∧
    (∀ p, (next_proxy samplePool).2 = some p →
      p ∈ samplePool.proxy_list ∧ p.validated = true ∧ p.is_active = true) ∧
    (samplePool.proxy_list ≠ [] → samplePool.current = Option.none →
      (next_proxy samplePool).2 = samplePool.proxy_list.get? 0) ∧
    (∀ i, samplePool.current = some i → i + 1 < samplePool.proxy_list.length →
      (next_proxy samplePool).2 = samplePool.proxy_list.get? (i + 1)) ∧
    (∀ i, samplePool.proxy_list ≠ [] → samplePool.current = some i →
      ¬ i + 1 < samplePool.proxy_list.length →
      (next_proxy samplePool).2 = samplePool.proxy_list.get? 0) :=
  next_proxy_post_validation samplePool (by decide)

/-! ## Round-robin fairness (repeated `next_proxy` calls) -/

/-- The pool state after `n` successive `next_proxy` calls. -/
def poolIter (P : Pool) : Nat → Pool
  | 0 => P
  | n + 1 => (next_proxy (poolIter P n)).1

/-- The proxy returned by the `(n+1)`-th successive `next_proxy` call
(calls are numbered from `0`). -/
def callResult (P : Pool) (n : Nat) : Option Proxy :=
  (next_proxy (poolIter P n)).2

/-- Helper: iterating `next_proxy` never changes the list. -/
theorem poolIter_list (P : Pool) : ∀ n, (poolIter P n).proxy_list = P.proxy_list := by
  intro n
  induction n with
  | zero => rfl
  | succ n ih => rw [poolIter, next_proxy_list, ih]

/-- Helper: successor modulo in the shape of the cursor update. -/
theorem succ_mod_eq_ite (k n : Nat) (hk : 0 < k) :
    (n + 1) % k = if n % k + 1 < k then n % k + 1 else 0 := by
  have h1 : (n + 1) % k = (n % k + 1) % k := by
    conv_lhs => rw [← Nat.div_add_mod n k]
    rw [Nat.add_assoc, Nat.mul_add_mod]
  have hmlt : n % k < k := Nat.mod_lt _ hk
  rw [h1]
  split
  · exact Nat.mod_eq_of_lt (by assumption)
  · have : n % k + 1 = k := by omega
    rw [this, Nat.mod_self]

/-- Helper: starting from an unset cursor, after `n + 1` calls the
cursor sits at index `n % k`. -/
theorem poolIter_current (ps : List Proxy) (hne : ps ≠ []) :
    ∀ n, (poolIter { proxy_list := ps } (n + 1)).current = some (n % ps.length) := by
  have hpos : 0 < ps.length := List.length_pos.mpr hne
  have hE : ¬ ps.isEmpty := fun h => hne (List.isEmpty_iff.mp h)
  intro n
  induction n with
  | zero =>
      show (next_proxy (poolIter { proxy_list := ps } 0)).1.current = _
      unfold poolIter next_proxy
      rw [if_neg hE]
      simp [nextCursor, Nat.mod_eq_of_lt hpos]
  | succ n ih =>
      show (next_proxy (poolIter { proxy_list := ps } (n + 1))).1.current = _
      have hlist : (poolIter { proxy_list := ps } (n + 1)).proxy_list = ps :=
        poolIter_list _ _
      unfold next_proxy
      rw [if_neg (by rw [hlist]; exact hE)]
      simp only [nextCursor, ih, hlist]
      rw [succ_mod_eq_ite _ _ hpos]

/-- Helper: starting from an unset cursor, the `(n+1)`-th call returns
the entry at index `n % k`. -/
theorem callResult_eq (ps : List Proxy) (hne : ps ≠ []) :
    ∀ n, callResult { proxy_list := ps } n = ps.get? (n % ps.length) := by
  have hpos : 0 < ps.length := List.length_pos.mpr hne
  have hE : ¬ ps.isEmpty := fun h => hne (List.isEmpty_iff.mp h)
  intro n
  cases n with
  | zero =>
      unfold callResult poolIter next_proxy
      rw [if_neg hE]
      simp [nextCursor, Nat.mod_eq_of_lt hpos]
  | succ n =>
      unfold callResult
      have hlist : (poolIter { proxy_list := ps } (n + 1)).proxy_list = ps :=
        poolIter_list _ _
      unfold next_proxy
      rw [if_neg (by rw [hlist]; exact hE)]
      simp only [nextCursor, poolIter_current ps hne n, hlist]
      rw [succ_mod_eq_ite _ _ hpos]

/-- Claim C4.  With `k` proxies and the cursor in its initial unset
state, the first `k` calls to `next_proxy` return the pool entries in
order (each exactly once), and the `(k+1)`-th call returns the same
entry as the first. -/
theorem round_robin_fairness (ps : List Proxy) (hne : ps ≠ [])
    (_hval : ∀ p ∈ ps, p.validated = true) :
    (List.range ps.length).map (fun j => callResult { proxy_list := ps } j) =
      ps.map some ∧
    callResult { proxy_list := ps } ps.length = callResult { proxy_list := ps } 0 := by
  have hpos : 0 < ps.length := List.length_pos.mpr hne
  constructor
  · apply List.ext_get?
    intro n
    rw [List.get?_map, List.get?_map]
    by_cases hn : n < ps.length
    · simp only [List.get?_range hn, Option.map_some', callResult_eq ps hne n,
        Nat.mod_eq_of_lt hn, List.get?_eq_get hn]
    · rw [List.get?_eq_none.mpr (by simpa using hn),
        List.get?_eq_none.mpr (by simpa using hn)]
      rfl
  · rw [callResult_eq ps hne, callResult_eq ps hne, Nat.mod_self,
      Nat.zero_mod]

/-- Witness for the C4 theorem on a concrete two-element pool. -/
theorem round_robin_fairness_witness :
    (List.range ([sampleActiveProxy, sampleActiveProxy] : List Proxy).length).map
        (fun j => callResult { proxy_list := [sampleActiveProxy, sampleActiveProxy] } j) =
      ([sampleActiveProxy, sampleActiveProxy] : List Proxy).map some ∧
    callResult { proxy_list := [sampleActiveProxy, sampleActiveProxy] }
        ([sampleActiveProxy, sampleActiveProxy] : List Proxy).length =
      callResult { proxy_list := [sampleActiveProxy, sampleActiveProxy] } 0 :=
  round_robin_fairness [sampleActiveProxy, sampleActiveProxy] (by decide) (by decide)

/-! ## The validation sweep (`proxy_loader.c`)

Each worker claims indices of the snapshot array under the index lock
and no two workers touch the same proxy, so the sweep is modelled as a
per-index pure update.  Whether a connect / handshake attempt succeeds
is the environment and is supplied as an oracle indexed by the
position of the proxy in the pool and by the attempted protocol. -/

/-- The C test `p->username && p->password && *p->username && *p->password`. -/
def creds_present : Option (List Char) → Option (List Char) → Bool
  | some u, some p => !u.isEmpty && !p.isEmpty
  | _, _ => false

/-- What the network did for one attempt: did the non-blocking connect
succeed, and did the protocol handshake succeed. -/
structure AttemptOutcome where
  connect_ok : Bool
  handshake_ok : Bool
deriving DecidableEq

/-- The attempt order built by `proxy_validator_worker`
(proxy_loader.c:262-271): only the declared type when one is set,
otherwise SOCKS5, SOCKS4, HTTP. -/
def attempt_order (t : ProxyType) : List ProxyType :=
  if t = ProxyType.NONE then [ProxyType.SOCKS5, ProxyType.SOCKS4, ProxyType.HTTP]
  else [t]

/-- The attempt loop (proxy_loader.c:273-299): a failed connect aborts
the whole loop; a successful handshake fixes the detected type; a
failed handshake moves on to the next type. -/
def detect_loop (oracle : ProxyType → AttemptOutcome) : List ProxyType → Option ProxyType
  | [] => Option.none
  | t :: rest =>
    if !(oracle t).connect_ok then Option.none
    else if (oracle t).handshake_ok then some t
    else detect_loop oracle rest

/-- Outcome recording of one worker iteration
(proxy_loader.c:301-344): on success the validation fields are set and
`type` is overwritten with the detected type; on failure they are
cleared. -/
def validator_step (oracle : ProxyType → AttemptOutcome) (rtt : Nat) (p : Proxy) : Proxy :=
  match detect_loop oracle (attempt_order p.ptype) with
  | some d =>
      { p with
          validated := true, is_active := true, detected_type := d,
          ptype := d, last_rtt_ms := rtt, has_auth := creds_present p.username p.password }
  | Option.none =>
      { p with
          validated := false, is_active := false,
          detected_type := ProxyType.NONE, last_rtt_ms := 0, has_auth := false }

/-- `check_and_validate_proxies` (proxy_loader.c:350-451) restricted to
its effect on the proxy list and its return value: empty pool yields
−1; otherwise every proxy gets a worker outcome, non-validated proxies
are removed, and the worker count of successes is returned. -/
def check_and_validate_proxies (oracle : Nat → ProxyType → AttemptOutcome)
    (rtt : Nat → Nat) (ps : List Proxy) : List Proxy × Int :=
  if ps = [] then (ps, -1)
  else
    let checked := ps.enum.map fun q => validator_step (oracle q.1) (rtt q.1) q.2
    (checked.filter (fun p => p.validated),
      Int.ofNat (checked.countP (fun p => p.validated)))

/-- Helper: the detected type comes from the attempt list. -/
theorem detect_loop_mem (oracle : ProxyType → AttemptOutcome) :
    ∀ (l : List ProxyType) (d : ProxyType), detect_loop oracle l = some d → d ∈ l := by
  intro l
  induction l with
  | nil => intro d h; cases h
  | cons t rest ih =>
      intro d h
      unfold detect_loop at h
      split at h
      · cases h
      · split at h
        · cases h
          exact List.mem_cons_self _ _
        · exact List.mem_cons_of_mem _ (ih d h)

/-- Helper: the attempt list never contains `PROXY_NONE`. -/
theorem attempt_order_ne_none (t : ProxyType) :
    ∀ d ∈ attempt_order t, d ≠ ProxyType.NONE := by
  intro d hd
  unfold attempt_order at hd
  split at hd
  · simp only [List.mem_cons, List.not_mem_nil, or_false] at hd
    rcases hd with h | h | h <;> (rw [h]; decide)
  · rename_i hne
    simp only [List.mem_singleton] at hd
    rw [hd]
    exact hne

/-- Helper: a validated worker outcome is active with a detected type. -/
theorem validator_step_validated (oracle : ProxyType → AttemptOutcome) (rtt : Nat)
    (p : Proxy) (h : (validator_step oracle rtt p).validated = true) :
    (validator_step oracle rtt p).is_active = true ∧
      (validator_step oracle rtt p).detected_type ≠ ProxyType.NONE := by
  rcases hd : detect_loop oracle (attempt_order p.ptype) with _ | d
  · have h2 : validator_step oracle rtt p =
        { p with
            validated := false, is_active := false,
            detected_type := ProxyType.NONE, last_rtt_ms := 0, has_auth := false } := by
      unfold validator_step
      rw [hd]
    rw [h2] at h
    simp at h
  · have h2 : validator_step oracle rtt p =
        { p with
            validated := true, is_active := true, detected_type := d,
            ptype := d, last_rtt_ms := rtt,
            has_auth := creds_present p.username p.password } := by
      unfold validator_step
      rw [hd]
    rw [h2]
    exact ⟨rfl, attempt_order_ne_none p.ptype d (detect_loop_mem oracle _ _ hd)⟩

/-- Claim C3.  After `check_and_validate_proxies` returns, every proxy
remaining in the pool is validated, active and has a detected type
different from NONE, and the return value is the number of working
proxies, or −1 when the pool was empty at entry. -/
theorem check_and_validate_invariant (oracle : Nat → ProxyType → AttemptOutcome)
    (rtt : Nat → Nat) (ps : List Proxy) :
    (ps = [] → (check_and_validate_proxies oracle rtt ps).2 = -1) ∧
    (ps ≠ [] →
      (∀ p ∈ (check_and_validate_proxies oracle rtt ps).1,
        p.validated = true ∧ p.is_active = true ∧ p.detected_type ≠ ProxyType.NONE) ∧
      (check_and_validate_proxies oracle rtt ps).2 =
        Int.ofNat (check_and_validate_proxies oracle rtt ps).1.length) := by
  constructor
  · intro h
    unfold check_and_validate_proxies
    rw [if_pos h]
  · intro hne
    unfold check_and_validate_proxies
    rw [if_neg hne]
    constructor
    · intro p hp
      simp only [List.mem_filter] at hp
      obtain ⟨hmem, hval⟩ := hp
      obtain ⟨q, _, hq⟩ := List.mem_map.mp hmem
      rw [← hq] at hval ⊢
      obtain ⟨ha, hd⟩ := validator_step_validated _ _ _ hval
      exact ⟨hval, ha, hd⟩
    · simp only
      rw [List.countP_eq_length_filter]

/-- A concrete unvalidated, type-unset proxy used by witnesses. -/
def sampleRawProxy : Proxy := { host := ['h'], port := 9 }

/-- Witness for the C3 theorem on a concrete one-element pool and an
all-succeeding network oracle. -/
theorem check_and_validate_invariant_witness :
    (([sampleRawProxy] : List Proxy) = [] →
      (check_and_validate_proxies (fun _ _ => ⟨true, true⟩) (fun _ => 7)
        [sampleRawProxy]).2 = -1) ∧
    (([sampleRawProxy] : List Proxy) ≠ [] →
      (∀ p ∈ (check_and_validate_proxies (fun _ _ => ⟨true, true⟩) (fun _ => 7)
          [sampleRawProxy]).1,
        p.validated = true ∧ p.is_active = true ∧ p.detected_type ≠ ProxyType.NONE) ∧
      (check_and_validate_proxies (fun _ _ => ⟨true, true⟩) (fun _ => 7)
          [sampleRawProxy]).2 =
        Int.ofNat (check_and_validate_proxies (fun _ _ => ⟨true, true⟩) (fun _ => 7)
          [sampleRawProxy]).1.length) :=
  check_and_validate_invariant (fun _ _ => ⟨true, true⟩) (fun _ => 7) [sampleRawProxy]

/-! ## Wire-level model of the handshakes

Handshake traffic is byte-exact, so the socket is modelled as a byte
stream: `input` holds the bytes the peer will deliver, `writes`
collects each message passed to `safe_write_with_timeout`.  A read of
`n` bytes fails (timeout / EOF / error) when fewer than `n` bytes
remain; writes always succeed (write failures abort before anything
interesting, and the verified claims concern successful runs and the
bytes emitted on the way). -/

/-- The modelled socket. -/
structure WireState where
  input : List Nat
  writes : List (List Nat)
deriving DecidableEq

/-- A `safe_read_with_timeout(fd, buf, n, 10)` call that must yield
exactly `n` bytes. -/
def wireRead (n : Nat) (s : WireState) : Option (List Nat × WireState) :=
  if n ≤ s.input.length then
    some (s.input.take n, { s with input := s.input.drop n })
  else Option.none

/-- A `safe_write_with_timeout(fd, buf, len, 10)` call. -/
def wireWrite (msg : List Nat) (s : WireState) : WireState :=
  { s with writes := s.writes ++ [msg] }

/-- Store of an `int` into an `unsigned char` slot. -/
def byteOf (n : Nat) : Nat := n % 256

/-- `(dest_port >> 8) & 0xFF`. -/
def portHi (port : Nat) : Nat := (port / 256) % 256

/-- `dest_port & 0xFF`. -/
def portLo (port : Nat) : Nat := port % 256

/-- The C test on byte-string credentials. -/
def creds_present_bytes : Option (List Nat) → Option (List Nat) → Bool
  | some u, some p => !u.isEmpty && !p.isEmpty
  | _, _ => false

/-- Distinct exits of `socks5_connect`; `nullCreds` marks the path on
which the C code would dereference a NULL credential pointer after the
server selected method 2. -/
inductive Socks5Result
  | ok
  | ioErr
  | badVersion
  | authFailed
  | noAcceptableMethod
  | rejected (code : Nat)
  | nullCreds
deriving DecidableEq

/-- The SOCKS5 REQUEST message built at proxy.c:1180-1188: VER 5, CMD
CONNECT, RSV 0, ATYP 3 (DOMAINNAME) always, then the host string with
a one-byte length and the two port bytes. -/
def socks5_request_msg (dest_host : List Nat) (dest_port : Nat) : List Nat :=
  [5, 1, 0, 3, byteOf dest_host.length] ++ dest_host ++ [portHi dest_port, portLo dest_port]

/-- Draining the BND.ADDR/BND.PORT tail after a granted reply
(proxy.c:1219-1236), keyed by the ATYP byte of the reply header. -/
def socks5_tail (s : WireState) (atyp : Nat) : Socks5Result × List (List Nat) :=
  if atyp = 1 then
    match wireRead 6 s with
    | some (_, s2) => (Socks5Result.ok, s2.writes)
    | Option.none => (Socks5Result.ioErr, s.writes)
  else if atyp = 3 then
    match wireRead 1 s with
    | some (al, s2) =>
        match wireRead (min (al.getD 0 0 + 2) 256) s2 with
        | some (_, s3) => (Socks5Result.ok, s3.writes)
        | Option.none => (Socks5Result.ioErr, s2.writes)
    | Option.none => (Socks5Result.ioErr, s.writes)
  else if atyp = 4 then
    match wireRead 18 s with
    | some (_, s2) => (Socks5Result.ok, s2.writes)
    | Option.none => (Socks5Result.ioErr, s.writes)
  else (Socks5Result.ok, s.writes)

/-- The REQUEST stage of `socks5_connect` (proxy.c:1180-1238): send the
request, read the 4-byte reply header, fail with the reply code when it
is not zero, then drain the bound-address tail. -/
def socks5_request_stage (dest_host : List Nat) (dest_port : Nat) (s : WireState) :
    Socks5Result × List (List Nat) :=
  match wireRead 4 (wireWrite (socks5_request_msg dest_host dest_port) s) with
  | Option.none => (Socks5Result.ioErr, (wireWrite (socks5_request_msg dest_host dest_port) s).writes)
  | some (rep, s6) =>
      if rep.getD 1 0 ≠ 0 then (Socks5Result.rejected (rep.getD 1 0), s6.writes)
      else socks5_tail s6 (rep.getD 3 0)

/-- `socks5_connect` (proxy.c:1092-1239): greeting (methods 0 and 2
when credentials are present, method 0 only otherwise), method reply,
optional RFC 1929 subnegotiation, then the REQUEST stage. -/
def socks5_connect (dest_host : List Nat) (dest_port : Nat)
    (username password : Option (List Nat)) (input : List Nat) :
    Socks5Result × List (List Nat) :=
  match wireRead 2 (wireWrite
      (if creds_present_bytes username password then [5, 2, 0, 2] else [5, 1, 0])
      ⟨input, []⟩) with
  | Option.none => (Socks5Result.ioErr,
      [if creds_present_bytes username password then [5, 2, 0, 2] else [5, 1, 0]])
  | some (reply, s2) =>
      if reply.getD 0 0 ≠ 5 then (Socks5Result.badVersion, s2.writes)
      else if reply.getD 1 0 = 2 then
        match username, password with
        | some us, some ps =>
            match wireRead 2 (wireWrite
                ([1, byteOf us.length] ++ us ++ [byteOf ps.length] ++ ps) s2) with
            | Option.none => (Socks5Result.ioErr,
                (wireWrite ([1, byteOf us.length] ++ us ++ [byteOf ps.length] ++ ps) s2).writes)
            | some (areply, s4) =>
                if areply.getD 1 0 ≠ 0 then (Socks5Result.authFailed, s4.writes)
                else socks5_request_stage dest_host dest_port s4
        | _, _ => (Socks5Result.nullCreds, s2.writes)
      else if reply.getD 1 0 ≠ 0 then (Socks5Result.noAcceptableMethod, s2.writes)
      else socks5_request_stage dest_host dest_port s2

/-- Helper: reading bytes does not change what has been written. -/
theorem wireRead_writes (n : Nat) (s : WireState) (b : List Nat) (s2 : WireState)
    (h : wireRead n s = some (b, s2)) : s2.writes = s.writes := by
  unfold wireRead at h
  split at h
  · cases h
    rfl
  · cases h

/-- Helper: the tail drain writes nothing. -/
theorem socks5_tail_writes (s : WireState) (atyp : Nat) :
    (socks5_tail s atyp).2 = s.writes := by
  unfold socks5_tail
  split
  · cases hr : wireRead 6 s with
    | none => rfl
    | some pr =>
        obtain ⟨b, s2⟩ := pr
        dsimp only
        exact wireRead_writes _ _ _ _ hr
  · split
    · cases hr : wireRead 1 s with
      | none => rfl
      | some pr =>
          obtain ⟨al, s2⟩ := pr
          dsimp only
          cases hr2 : wireRead (min (al.getD 0 0 + 2) 256) s2 with
          | none =>
              dsimp only
              exact wireRead_writes _ _ _ _ hr
          | some pr2 =>
              obtain ⟨b, s3⟩ := pr2
              dsimp only
              rw [wireRead_writes _ _ _ _ hr2]
              exact wireRead_writes _ _ _ _ hr
    · split
      · cases hr : wireRead 18 s with
        | none => rfl
        | some pr =>
            obtain ⟨b, s2⟩ := pr
            dsimp only
            exact wireRead_writes _ _ _ _ hr
      · rfl

/-- Helper: whatever the REQUEST stage returns, the request message is
the last message written. -/
theorem socks5_request_stage_last (dest_host : List Nat) (dest_port : Nat) (s : WireState) :
    (socks5_request_stage dest_host dest_port s).2.getLast? =
      some (socks5_request_msg dest_host dest_port) := by
  unfold socks5_request_stage
  cases hr : wireRead 4 (wireWrite (socks5_request_msg dest_host dest_port) s) with
  | none =>
      show (wireWrite (socks5_request_msg dest_host dest_port) s).writes.getLast? = _
      unfold wireWrite
      exact List.getLast?_concat _
  | some pr =>
      obtain ⟨rep, s6⟩ := pr
      have h6 : s6.writes = s.writes ++ [socks5_request_msg dest_host dest_port] :=
        wireRead_writes _ _ _ _ hr
      dsimp only
      split
      · rw [h6]
        exact List.getLast?_concat _
      · rw [socks5_tail_writes, h6]
        exact List.getLast?_concat _

/-- The byte values of the string `example.org`. -/
def exampleOrgBytes : List Nat := [101, 120, 97, 109, 112, 108, 101, 46, 111, 114, 103]

/-- Claim C5.  A credential-less SOCKS5 CONNECT to `example.org:6667`
writes exactly the greeting `05 01 00`, and after the method reply
`05 00` exactly the request `05 01 00 03 0B example.org 1A 0B`,
succeeding on the granted reply with an ATYP-1 six-byte tail; and in
general every successful `socks5_connect` run ends its write sequence
with a request that uses ATYP 3 (DOMAINNAME) carrying the destination
host string, whatever the host is. -/
theorem socks5_connect_wire_format :
    (socks5_connect exampleOrgBytes 6667 Option.none Option.none
        ([5, 0] ++ [5, 0, 0, 1] ++ [0, 0, 0, 0, 0, 0]) =
      (Socks5Result.ok,
        [[5, 1, 0], [5, 1, 0, 3, 11] ++ exampleOrgBytes ++ [26, 11]])) ∧
    (∀ (hst : List Nat) (prt : Nat) (u pw : Option (List Nat)) (input : List Nat),
      (socks5_connect hst prt u pw input).1 = Socks5Result.ok →
      (socks5_connect hst prt u pw input).2.getLast? =
        some ([5, 1, 0, 3, hst.length % 256] ++ hst ++
          [(prt / 256) % 256, prt % 256])) := by
  constructor
  · decide
  · intro hst prt u pw input h
    have hmsg : socks5_request_msg hst prt =
        [5, 1, 0, 3, hst.length % 256] ++ hst ++ [(prt / 256) % 256, prt % 256] := rfl
    rw [← hmsg]
    unfold socks5_connect at h ⊢
    cases hr : wireRead 2 (wireWrite
        (if creds_present_bytes u pw then [5, 2, 0, 2] else [5, 1, 0])
        ⟨input, []⟩) with
    | none =>
        rw [hr] at h
        dsimp only at h
        cases h
    | some pr =>
        obtain ⟨reply, s2⟩ := pr
        rw [hr] at h
        dsimp only at h ⊢
        by_cases hc1 : reply.getD 0 0 = 5
        · rw [if_neg (not_not_intro hc1)] at h ⊢
          by_cases hc2 : reply.getD 1 0 = 2
          · rw [if_pos hc2] at h ⊢
            rcases u with _ | us
            · dsimp only at h
              cases h
            · rcases pw with _ | ps
              · dsimp only at h
                cases h
              · dsimp only at h ⊢
                cases hr2 : wireRead 2 (wireWrite
                    ([1, byteOf us.length] ++ us ++ [byteOf ps.length] ++ ps) s2) with
                | none =>
                    rw [hr2] at h
                    dsimp only at h
                    cases h
                | some pr2 =>
                    obtain ⟨areply, s4⟩ := pr2
                    rw [hr2] at h
                    dsimp only at h
                    dsimp only
                    by_cases hc4 : areply.getD 1 0 = 0
                    · rw [if_neg (not_not_intro hc4)] at h ⊢
                      exact socks5_request_stage_last hst prt s4
                    · rw [if_pos hc4] at h
                      cases h
          · rw [if_neg hc2] at h ⊢
            by_cases hc3 : reply.getD 1 0 = 0
            · rw [if_neg (not_not_intro hc3)] at h ⊢
              exact socks5_request_stage_last hst prt s2
            · rw [if_pos hc3] at h
              cases h
        · rw [if_pos hc1] at h
          cases h

/-- Witness for the general part of the C5 theorem at the concrete
handshake of the fixture. -/
theorem socks5_connect_wire_format_witness :
    (socks5_connect exampleOrgBytes 6667 Option.none Option.none
        ([5, 0] ++ [5, 0, 0, 1] ++ [0, 0, 0, 0, 0, 0])).2.getLast? =
      some ([5, 1, 0, 3, exampleOrgBytes.length % 256] ++ exampleOrgBytes ++
        [(6667 / 256) % 256, 6667 % 256]) :=
  socks5_connect_wire_format.2 exampleOrgBytes 6667 Option.none Option.none
    ([5, 0] ++ [5, 0, 0, 1] ++ [0, 0, 0, 0, 0, 0]) (by decide)

/-! ## HTTP CONNECT (`http_connect`, proxy.c:1241-1320) -/

/-- CR LF. -/
def crlf : List Char := ['\r', '\n']

/-- The C `isspace` classifier (space, tab, newline, vertical tab,
form feed, carriage return). -/
def c_isspace (c : Char) : Bool :=
  c = ' ' || c = '\t' || c = '\n' || c = Char.ofNat 11 || c = Char.ofNat 12 || c = '\r'

/-- The digit-accumulating loop of `atoi` / `strtol`. -/
def atoi_digits : List Char → Nat → Nat
  | [], acc => acc
  | c :: rest, acc =>
      if c.isDigit then atoi_digits rest (acc * 10 + (c.toNat - 48)) else acc

/-- `atoi`: skip whitespace, optional sign, leading digits. -/
def c_atoi (s : List Char) : Int :=
  match s.dropWhile (fun c => c_isspace c) with
  | '-' :: rest => -(Int.ofNat (atoi_digits rest 0))
  | '+' :: rest => Int.ofNat (atoi_digits rest 0)
  | t => Int.ofNat (atoi_digits t 0)

/-- The base64 alphabet of proxy.c:1256. -/
def b64chars : List Char :=
  "ABCDEFGHIJKLMNOPQRSTUVWXYZabcdefghijklmnopqrstuvwxyz0123456789+/".toList

/-- Index into the base64 alphabet. -/
def b64char (i : Nat) : Char := b64chars.getD i 'A'

/-- The base64 loop of proxy.c:1259-1269, three input bytes at a time
with `=` padding; shifts and masks written as the equivalent division
and remainder on byte values. -/
def base64_encode : List Nat → List Char
  | [] => []
  | [a] => [b64char (a / 4), b64char (a % 4 * 16), '=', '=']
  | [a, b] => [b64char (a / 4), b64char (a % 4 * 16 + b / 16), b64char (b % 16 * 4), '=']
  | a :: b :: c :: rest =>
      [b64char (a / 4), b64char (a % 4 * 16 + b / 16), b64char (b % 16 * 4 + c / 64),
        b64char (c % 64)] ++ base64_encode rest

/-- The request assembled at proxy.c:1247-1274: CONNECT line, Host
line, optional Proxy-Authorization with base64 of `user:pass`, blank
line. -/
def http_request (dest_host : List Char) (dest_port : Nat)
    (username password : Option (List Char)) : List Char :=
  "CONNECT ".toList ++ dest_host ++ [':'] ++ Nat.toDigits 10 dest_port ++
    " HTTP/1.1".toList ++ crlf ++
    "Host: ".toList ++ dest_host ++ [':'] ++ Nat.toDigits 10 dest_port ++ crlf ++
    (if creds_present username password then
      "Proxy-Authorization: Basic ".toList ++
        base64_encode ((username.getD [] ++ [':'] ++ password.getD []).map Char.toNat) ++
        crlf
    else []) ++ crlf

/-- The byte-by-byte response loop of proxy.c:1285-1303: read single
bytes until the last four are CR LF CR LF, or stop reading (and parse
what is there) once 2047 bytes have accumulated; a read failure before
that is an error. -/
def http_read_resp : List Char → List Char → Option (List Char)
  | acc, [] => if 2047 ≤ acc.length then some acc else Option.none
  | acc, c :: rest =>
      if 2047 ≤ acc.length then some acc
      else if 4 ≤ (acc ++ [c]).length ∧
          (acc ++ [c]).drop ((acc ++ [c]).length - 4) = crlf ++ crlf
      then some (acc ++ [c])
      else http_read_resp (acc ++ [c]) rest

/-- Distinct exits of `http_connect`. -/
inductive HttpResult
  | ok
  | ioErr
  | invalidResponse
  | rejected (code : Int)
deriving DecidableEq

/-- The accepted response magic (`strncmp(buf, "HTTP/1.", 7)`). -/
def http_magic : List Char := "HTTP/1.".toList

/-- `http_connect`: write the request, collect the response, succeed
exactly on magic `HTTP/1.` and `atoi(buf + 9) == 200`; the second
component is the request written. -/
def http_connect (dest_host : List Char) (dest_port : Nat)
    (username password : Option (List Char)) (input : List Char) :
    HttpResult × List Char :=
  match http_read_resp [] input with
  | Option.none => (HttpResult.ioErr, http_request dest_host dest_port username password)
  | some resp =>
      if resp.take 7 ≠ http_magic then
        (HttpResult.invalidResponse, http_request dest_host dest_port username password)
      else if c_atoi (resp.drop 9) ≠ 200 then
        (HttpResult.rejected (c_atoi (resp.drop 9)),
          http_request dest_host dest_port username password)
      else (HttpResult.ok, http_request dest_host dest_port username password)

/-- Claim C6.  `http_connect` succeeds iff the collected response
starts with `HTTP/1.` and the status parsed at offset 9 is exactly
200, and returns `Rejected(status)` for any other status; with user
`a` and pass `b` the request carries exactly the header
`Proxy-Authorization: Basic YTpi` (standard-alphabet base64 of `a:b`),
so the 200 fixture succeeds and the 407 fixture is rejected with 407. -/
theorem http_connect_status (hst : List Char) (prt : Nat)
    (u pw : Option (List Char)) (input : List Char) :
    ((http_connect hst prt u pw input).1 = HttpResult.ok ↔
      ∃ resp, http_read_resp [] input = some resp ∧
        resp.take 7 = http_magic ∧ c_atoi (resp.drop 9) = 200) ∧
    (∀ resp, http_read_resp [] input = some resp →
      resp.take 7 = http_magic → c_atoi (resp.drop 9) ≠ 200 →
      (http_connect hst prt u pw input).1 = HttpResult.rejected (c_atoi (resp.drop 9))) ∧
    (∃ pre post, http_request "example.org".toList 443 (some ['a']) (some ['b']) =
      pre ++ ("Proxy-Authorization: Basic YTpi".toList ++ crlf) ++ post) ∧
    ((http_connect "example.org".toList 443 (some ['a']) (some ['b'])
        "HTTP/1.1 200 OK\r\n\r\n".toList).1 = HttpResult.ok) ∧
    ((http_connect "example.org".toList 443 (some ['a']) (some ['b'])
        "HTTP/1.1 407 Proxy Authentication Required\r\n\r\n".toList).1 =
      HttpResult.rejected 407) := by
  refine ⟨?_, ?_, ?_, by decide, by decide⟩
  · unfold http_connect
    cases hr : http_read_resp [] input with
    | none =>
        dsimp only
        constructor
        · intro h
          cases h
        · rintro ⟨resp, hresp, -⟩
          cases hresp
    | some resp =>
        dsimp only
        by_cases h7 : resp.take 7 = http_magic
        · rw [if_neg (not_not_intro h7)]
          by_cases h200 : c_atoi (resp.drop 9) = 200
          · rw [if_neg (not_not_intro h200)]
            simp only [true_iff]
            exact ⟨resp, rfl, h7, h200⟩
          · rw [if_pos h200]
            constructor
            · intro h
              cases h
            · rintro ⟨resp2, hresp2, -, h2⟩
              cases hresp2
              exact absurd h2 h200
        · rw [if_pos h7]
          constructor
          · intro h
            cases h
          · rintro ⟨resp2, hresp2, h1, -⟩
            cases hresp2
            exact absurd h1 h7
  · intro resp hresp h7 h200
    unfold http_connect
    rw [hresp]
    dsimp only
    rw [if_neg (not_not_intro h7), if_pos h200]
  · refine ⟨"CONNECT example.org:443 HTTP/1.1\r\nHost: example.org:443\r\n".toList,
      "\r\n".toList, ?_⟩
    decide

/-- Witness for the C6 theorem: the 407 fixture is rejected with code
c_atoi of its status field. -/
theorem http_connect_status_witness :
    (http_connect "example.org".toList 443 (some ['a']) (some ['b'])
        "HTTP/1.1 407 Proxy Authentication Required\r\n\r\n".toList).1 =
      HttpResult.rejected
        (c_atoi (("HTTP/1.1 407 Proxy Authentication Required\r\n\r\n".toList).drop 9)) :=
  (http_connect_status "example.org".toList 443 (some ['a']) (some ['b'])
      "HTTP/1.1 407 Proxy Authentication Required\r\n\r\n".toList).2.1
    "HTTP/1.1 407 Proxy Authentication Required\r\n\r\n".toList
    (by decide) (by decide) (by decide)

/-! ## The line parser (`parse_proxy_line`, proxy.c:611-862)

The C code mutates one NUL-terminated buffer in place; the embedding
rebuilds the same token structure functionally.  Name resolution
(`getaddrinfo` with `ai_family` = AF_INET6 when the host was bracketed,
AF_UNSPEC otherwise) is the oracle `resolve host ipv6Hint`, returning
the family of the first result, or `Option.none` for a lookup failure
or an unexpected family. -/

/-- `trim_whitespace` (proxy.c:589-609): strip leading and trailing
C-whitespace. -/
def trim_whitespace (s : List Char) : List Char :=
  ((s.dropWhile fun c => c_isspace c).reverse.dropWhile fun c => c_isspace c).reverse

/-- The loop at proxy.c:630-632 NUL-terminates at every CR or LF, so
the later string operations see the text before the first one. -/
def strip_newlines (s : List Char) : List Char :=
  s.takeWhile fun c => c != '\n' && c != '\r'

/-- `strchr` split: text before the first separator and text after it. -/
def split_first (sep : Char) : List Char → Option (List Char × List Char)
  | [] => Option.none
  | c :: rest =>
      if c = sep then some ([], rest)
      else
        match split_first sep rest with
        | some (l, r) => some (c :: l, r)
        | Option.none => Option.none

/-- `strrchr` split: text before the last separator and text after it. -/
def split_last (sep : Char) (s : List Char) : Option (List Char × List Char) :=
  match split_first sep s.reverse with
  | some (l, r) => some (r.reverse, l.reverse)
  | Option.none => Option.none

/-- `strstr(work, "://")` split: text before the first occurrence and
text after the three separator characters. -/
def find_scheme_sep : List Char → Option (List Char × List Char)
  | [] => Option.none
  | c :: rest =>
      if c = ':' ∧ rest.take 2 = ['/', '/'] then some ([], rest.drop 2)
      else
        match find_scheme_sep rest with
        | some (l, r) => some (c :: l, r)
        | Option.none => Option.none

/-- ASCII lower-casing. -/
def to_lower (c : Char) : Char :=
  if 'A' ≤ c ∧ c ≤ 'Z' then Char.ofNat (c.toNat + 32) else c

/-- Modelled from the spec: the repo declares `x_strcasecmp` but its
definition is not under src/; per the spec scheme matching is
case-insensitive, so it is modelled as libc `strcasecmp` equality. -/
def str_ieq (a b : List Char) : Bool := a.map to_lower == b.map to_lower

/-- `strtol(s, &endptr, 10)`: skip whitespace, optional sign, leading
digits; returns the value and the unconsumed rest (the whole input
when no digit was consumed, like `endptr == nptr`). -/
def strtol10 (s : List Char) : Int × List Char :=
  match s.dropWhile fun c => c_isspace c with
  | '-' :: rest =>
      if rest.head?.any Char.isDigit then
        (-(Int.ofNat (atoi_digits rest 0)), rest.dropWhile Char.isDigit)
      else (0, s)
  | '+' :: rest =>
      if rest.head?.any Char.isDigit then
        (Int.ofNat (atoi_digits rest 0), rest.dropWhile Char.isDigit)
      else (0, s)
  | t =>
      if t.head?.any Char.isDigit then
        (Int.ofNat (atoi_digits t 0), t.dropWhile Char.isDigit)
      else (0, s)

/-- The port check at proxy.c:787-795: parse with `strtol`, allow only
trailing whitespace, require 1..65535. -/
def parse_port (port_token : List Char) : Option Nat :=
  match strtol10 port_token with
  | (v, rest) =>
      if (rest.dropWhile fun c => c_isspace c) ≠ [] then Option.none
      else if v ≤ 0 ∨ 65535 < v then Option.none
      else some v.toNat

/-- The C guards `x && *x`: a credential pointer that is set and
non-empty. -/
def cred_nonempty : Option (List Char) → Option (List Char)
  | some l => if l.isEmpty then Option.none else some l
  | Option.none => Option.none

/-- proxy.c:797-831: prefix credentials win; the suffix ones are used
only when the corresponding prefix one is NULL or empty. -/
def pick_cred (a b : Option (List Char)) : Option (List Char) :=
  match cred_nonempty a with
  | some l => some l
  | Option.none => cred_nonempty b

/-- Host/port/suffix-credential tokens of the two host syntaxes. -/
structure HostPort where
  host_token : List Char
  port_token : List Char
  suffix_user : Option (List Char)
  suffix_pass : Option (List Char)
  ipv6_hint : Bool
deriving DecidableEq

/-- The bracketed-IPv6 branch (proxy.c:692-730): host between `[` and
the first `]`, a mandatory colon, then port and optional
user/password.  As in the C, the suffix user keeps whatever trailing
whitespace precedes its colon (`*after_user = 0` happens after the
leading trim). -/
def parse_bracket_hostport (work : List Char) : Option HostPort :=
  match split_first ']' work with
  | Option.none => Option.none
  | some (before, after) =>
      let host_token := trim_whitespace (before.drop 1)
      let rest0 := trim_whitespace after
      if rest0.head? = some ':' then
        let rest1 := trim_whitespace (rest0.drop 1)
        if rest1 = [] then Option.none
        else
          match split_first ':' rest1 with
          | some (before2, after2) =>
              let su0 := trim_whitespace after2
              if su0 = [] then
                some { host_token := host_token, port_token := trim_whitespace before2,
                       suffix_user := some su0, suffix_pass := Option.none,
                       ipv6_hint := true }
              else
                match split_first ':' su0 with
                | some (u2, p2) =>
                    some { host_token := host_token, port_token := trim_whitespace before2,
                           suffix_user := some u2, suffix_pass := some (trim_whitespace p2),
                           ipv6_hint := true }
                | Option.none =>
                    some { host_token := host_token, port_token := trim_whitespace before2,
                           suffix_user := some su0, suffix_pass := Option.none,
                           ipv6_hint := true }
          | Option.none =>
              some { host_token := host_token, port_token := trim_whitespace rest1,
                     suffix_user := Option.none, suffix_pass := Option.none,
                     ipv6_hint := true }
      else Option.none

/-- The colon-splitting loop (proxy.c:732-745): up to four fields; the
remainder after a fourth colon is kept for the password rejoin. -/
def split_parts : Nat → List Char → List (List Char) × Option (List Char)
  | 0, s => ([], some s)
  | fuel + 1, s =>
      match split_first ':' s with
      | Option.none => ([s], Option.none)
      | some (a, b) =>
          match split_parts fuel b with
          | (ps, rem) => (a :: ps, rem)

/-- The plain `HOST:PORT[:USER[:PASS]]` branch (proxy.c:731-773): the
trailing PASS field absorbs any remainder after the fourth colon
(joined back with a colon after trimming the remainder). -/
def parse_plain_hostport (work : List Char) : Option HostPort :=
  match split_parts 4 work with
  | (parts0, rem) =>
      let parts :=
        match rem with
        | some t =>
            let tt := trim_whitespace t
            if tt = [] then parts0
            else parts0.dropLast ++ [parts0.getLastD [] ++ [':'] ++ tt]
        | Option.none => parts0
      if parts.length < 2 then Option.none
      else
        let host_token := trim_whitespace (parts.getD 0 [])
        let port_token := trim_whitespace (parts.getD 1 [])
        if host_token = [] ∨ port_token = [] then Option.none
        else
          some { host_token := host_token, port_token := port_token,
                 suffix_user :=
                   if 3 ≤ parts.length then some (trim_whitespace (parts.getD 2 []))
                   else Option.none,
                 suffix_pass :=
                   if 4 ≤ parts.length then some (trim_whitespace (parts.getD 3 []))
                   else Option.none,
                 ipv6_hint := false }

/-- The fields established before name resolution. -/
structure PreProxy where
  host : List Char
  port : Nat
  username : Option (List Char)
  password : Option (List Char)
  ptype : ProxyType
  ipv6_hint : Bool
deriving DecidableEq

/-- proxy.c:638-861 after the blank/comment filter: bracket peel,
scheme, rightmost `@` credentials, host/port tokens, port range check
and credential selection. -/
def parse_core_body (work1 : List Char) (default_type : ProxyType) : Option PreProxy :=
  let work2 :=
    if 2 < work1.length ∧ work1.head? = some '[' ∧ work1.getLast? = some ']' ∧
        '@' ∈ work1.drop 1
    then trim_whitespace ((work1.drop 1).dropLast)
    else work1
  if work2 = [] then Option.none
  else
    let schemeSplit := find_scheme_sep work2
    let ptype :=
      match schemeSplit with
      | some (sch, _) =>
          if str_ieq sch "http".toList then ProxyType.HTTP
          else if str_ieq sch "https".toList then ProxyType.HTTPS
          else if str_ieq sch "socks4".toList then ProxyType.SOCKS4
          else if str_ieq sch "socks5".toList then ProxyType.SOCKS5
          else default_type
      | Option.none => default_type
    let work3 :=
      match schemeSplit with
      | some (_, rest) => trim_whitespace rest
      | Option.none => work2
    let atSplit := split_last '@' work3
    let work4 :=
      match atSplit with
      | some (_, after) => trim_whitespace after
      | Option.none => trim_whitespace work3
    let prefix_creds : Option (List Char) × Option (List Char) :=
      match atSplit with
      | some (before, _) =>
          let user_pass := trim_whitespace before
          if user_pass = [] then (Option.none, Option.none)
          else
            match split_first ':' user_pass with
            | some (u0, p0) => (some (trim_whitespace u0), some (trim_whitespace p0))
            | Option.none => (some user_pass, Option.none)
      | Option.none => (Option.none, Option.none)
    if work4 = [] then Option.none
    else
      match (if work4.head? = some '[' then parse_bracket_hostport work4
             else parse_plain_hostport work4) with
      | Option.none => Option.none
      | some hp =>
          if hp.host_token = [] ∨ hp.port_token = [] then Option.none
          else
            match parse_port hp.port_token with
            | Option.none => Option.none
            | some prt =>
                some { host := hp.host_token, port := prt,
                       username := pick_cred prefix_creds.1 hp.suffix_user,
                       password := pick_cred prefix_creds.2 hp.suffix_pass,
                       ptype := ptype, ipv6_hint := hp.ipv6_hint }

/-- The working text after truncation at 511 bytes, NUL-ing of CR/LF
and whitespace trim (proxy.c:627-634). -/
def parsed_work (line : List Char) : List Char :=
  trim_whitespace (strip_newlines (line.take 511))

/-- The pre-resolution part of `parse_proxy_line`: NULL or blank or
comment lines yield nothing, the rest goes to `parse_core_body`. -/
def parse_core (line : List Char) (default_type : ProxyType) : Option PreProxy :=
  if line = [] then Option.none
  else if parsed_work line = [] then Option.none
  else if (parsed_work line).head? = some '#' then Option.none
  else parse_core_body (parsed_work line) default_type

/-- The address family of the first `getaddrinfo` result. -/
inductive AddrFamily
  | inet
  | inet6
deriving DecidableEq

/-- `parse_proxy_line` (proxy.c:611-862): the parsed record resolved
through `getaddrinfo`; `is_ipv6` is set from the resulting family
(proxy.c:841-852), all validation fields start zeroed (`calloc`). -/
def parse_proxy_line (resolve : List Char → Bool → Option AddrFamily)
    (line : List Char) (default_type : ProxyType) : Option Proxy :=
  match parse_core line default_type with
  | Option.none => Option.none
  | some pre =>
      match resolve pre.host pre.ipv6_hint with
      | some AddrFamily.inet6 =>
          some { host := pre.host, port := pre.port, username := pre.username,
                 password := pre.password, ptype := pre.ptype, is_ipv6 := true }
      | some AddrFamily.inet =>
          some { host := pre.host, port := pre.port, username := pre.username,
                 password := pre.password, ptype := pre.ptype, is_ipv6 := false }
      | Option.none => Option.none

/-- Claim C7.  `socks5://u:p@198.51.100.4:1080` parses to host
198.51.100.4, port 1080, user `u`, pass `p`, declared type SOCKS5 and
`is_ipv6 = 0` (when the address resolves in AF_INET);
`[2001:db8::1]:1080:alice:s3cret` parses to host 2001:db8::1, port
1080, user `alice`, pass `s3cret`, the caller default type and
`is_ipv6 = 1` (when the address resolves in AF_INET6); a line that is
blank (trims to nothing) or whose first non-whitespace character is
`#` yields no record. -/
theorem parse_proxy_line_fixtures :
    (∀ (resolve : List Char → Bool → Option AddrFamily) (dt : ProxyType),
      resolve "198.51.100.4".toList false = some AddrFamily.inet →
      parse_proxy_line resolve "socks5://u:p@198.51.100.4:1080".toList dt =
        some { host := "198.51.100.4".toList, port := 1080,
               username := some ['u'], password := some ['p'],
               ptype := ProxyType.SOCKS5, is_ipv6 := false }) ∧
    (∀ (resolve : List Char → Bool → Option AddrFamily) (dt : ProxyType),
      resolve "2001:db8::1".toList true = some AddrFamily.inet6 →
      parse_proxy_line resolve "[2001:db8::1]:1080:alice:s3cret".toList dt =
        some { host := "2001:db8::1".toList, port := 1080,
               username := some "alice".toList, password := some "s3cret".toList,
               ptype := dt, is_ipv6 := true }) ∧
    (∀ (resolve : List Char → Bool → Option AddrFamily) (line : List Char) (dt : ProxyType),
      parsed_work line = [] ∨ (parsed_work line).head? = some '#' →
      parse_proxy_line resolve line dt = Option.none) := by
  refine ⟨?_, ?_, ?_⟩
  · intro resolve dt h
    have hcore : parse_core "socks5://u:p@198.51.100.4:1080".toList dt =
        some { host := "198.51.100.4".toList, port := 1080, username := some ['u'],
               password := some ['p'], ptype := ProxyType.SOCKS5, ipv6_hint := false } := by
      rfl
    unfold parse_proxy_line
    rw [hcore]
    dsimp only
    rw [h]
  · intro resolve dt h
    have hcore : parse_core "[2001:db8::1]:1080:alice:s3cret".toList dt =
        some { host := "2001:db8::1".toList, port := 1080,
               username := some "alice".toList, password := some "s3cret".toList,
               ptype := dt, ipv6_hint := true } := by
      rfl
    unfold parse_proxy_line
    rw [hcore]
    dsimp only
    rw [h]
  · intro resolve line dt h
    have hcore : parse_core line dt = Option.none := by
      unfold parse_core
      by_cases hl : line = []
      · rw [if_pos hl]
      · rw [if_neg hl]
        rcases h with h0 | h0
        · rw [if_pos h0]
        · have hne : ¬ parsed_work line = [] := by
            intro hX
            rw [hX] at h0
            cases h0
          rw [if_neg hne, if_pos h0]
    unfold parse_proxy_line
    rw [hcore]

/-- Witness for the C7 theorem: the SOCKS5 fixture under a concrete
resolver that answers AF_INET for unbracketed hosts. -/
theorem parse_proxy_line_fixtures_witness :
    parse_proxy_line
        (fun _ ipv6 => if ipv6 then some AddrFamily.inet6 else some AddrFamily.inet)
        "socks5://u:p@198.51.100.4:1080".toList ProxyType.NONE =
      some { host := "198.51.100.4".toList, port := 1080,
             username := some ['u'], password := some ['p'],
             ptype := ProxyType.SOCKS5, is_ipv6 := false } :=
  parse_proxy_line_fixtures.1
    (fun _ ipv6 => if ipv6 then some AddrFamily.inet6 else some AddrFamily.inet)
    ProxyType.NONE (by decide)

/-! ## Saving the pool (`save_validated_proxies`, proxy_loader.c:453-495) -/

/-- The scheme chosen by the `switch (p->type)` at
proxy_loader.c:466-483. -/
def scheme_of (t : ProxyType) : List Char :=
  match t with
  | ProxyType.HTTP => "http://".toList
  | ProxyType.HTTPS => "https://".toList
  | ProxyType.SOCKS4 => "socks4://".toList
  | ProxyType.SOCKS5 => "socks5://".toList
  | ProxyType.NONE => []

/-- One output line (with its newline) of `save_validated_proxies`:
note the C switches on `p->type`, not on `p->detected_type`. -/
def save_line (p : Proxy) : List Char :=
  scheme_of p.ptype ++
    (if creds_present p.username p.password then
      p.username.getD [] ++ [':'] ++ p.password.getD [] ++ ['@']
    else []) ++ p.host ++ [':'] ++ Nat.toDigits 10 p.port ++ ['\n']

/-- `save_validated_proxies` on an opened file: the written lines and
the returned count. -/
def save_validated_proxies (ps : List Proxy) : List (List Char) × Int :=
  (ps.map save_line, Int.ofNat ps.length)

/-- Formalisation of the C8 claim wording, for comparison: the scheme
drawn from `detected_type` instead of `type`. -/
def claimed_save_line (p : Proxy) : List Char :=
  scheme_of p.detected_type ++
    (if creds_present p.username p.password then
      p.username.getD [] ++ [':'] ++ p.password.getD [] ++ ['@']
    else []) ++ p.host ++ [':'] ++ Nat.toDigits 10 p.port ++ ['\n']

/-- A proxy whose current type and detected type disagree, as after
`load_proxies` of a `socks5://` line with no validation sweep. -/
def mismatchProxy : Proxy := { host := ['h'], port := 1, ptype := ProxyType.SOCKS5 }

/-- Claim C8, counterexample.  On a proxy with `type = SOCKS5` and
`detected_type = NONE` (a loaded, never-validated pool entry) the code
writes the `socks5://` scheme taken from `type`, not the empty scheme
the claim derives from `detected_type`. -/
theorem save_scheme_from_detected_cex :
    (save_validated_proxies [mismatchProxy]).1 = [save_line mismatchProxy] ∧
    save_line mismatchProxy = "socks5://h:1\n".toList ∧
    claimed_save_line mismatchProxy = "h:1\n".toList ∧
    save_line mismatchProxy ≠ claimed_save_line mismatchProxy := by
  refine ⟨rfl, by decide, by decide, by decide⟩

/-- Claim C8, amended.  `save_validated_proxies` writes exactly one
line per proxy in the canonical `scheme://[user:pass@]host:port` form,
with the scheme determined by the proxy field `type` (which the
validator sets equal to `detected_type`, so both agree on a pool that
has been swept) and the credentials block emitted only when both
username and password are non-empty. -/
theorem save_validated_format (ps : List Proxy) :
    (save_validated_proxies ps).1.length = ps.length ∧
    (save_validated_proxies ps).2 = Int.ofNat ps.length ∧
    (∀ i p, ps.get? i = some p →
      (save_validated_proxies ps).1.get? i =
        some (scheme_of p.ptype ++
          (if creds_present p.username p.password then
            p.username.getD [] ++ [':'] ++ p.password.getD [] ++ ['@']
          else []) ++ p.host ++ [':'] ++ Nat.toDigits 10 p.port ++ ['\n'])) ∧
    (∀ p : Proxy, p.detected_type = p.ptype → save_line p = claimed_save_line p) := by
  refine ⟨by simp [save_validated_proxies], rfl, ?_, ?_⟩
  · intro i p hp
    show (ps.map save_line).get? i = _
    rw [List.get?_map, hp]
    rfl
  · intro p hp
    unfold save_line claimed_save_line
    rw [hp]

/-- Witness for the amended C8 theorem on a one-element pool. -/
theorem save_validated_format_witness :
    (save_validated_proxies [sampleActiveProxy]).1.get? 0 =
      some (scheme_of sampleActiveProxy.ptype ++
        (if creds_present sampleActiveProxy.username sampleActiveProxy.password then
          sampleActiveProxy.username.getD [] ++ [':'] ++
            sampleActiveProxy.password.getD [] ++ ['@']
        else []) ++ sampleActiveProxy.host ++ [':'] ++
        Nat.toDigits 10 sampleActiveProxy.port ++ ['\n']) :=
  (save_validated_format [sampleActiveProxy]).2.2.1 0 sampleActiveProxy (by decide)

/-! ## Loading the pool (`load_proxies`, proxy.c:864-909) -/

/-- `del_proxy_all` (proxy.c:925-936): frees the list and resets list,
tail, cursor and count; the remembered file name is untouched. -/
def del_proxy_all (st : Pool) : Pool :=
  { st with proxy_list := [], current := Option.none, proxy_count := 0 }

/-- `load_proxies`: `file` is the opened file as its lines, or
`Option.none` when `fopen` fails.  On open failure the function
returns −1 before touching the pool; once open, the old pool is
cleared, each line is parsed (failures skipped), and the bookkeeping
fields are updated only when at least one proxy parsed. -/
def load_proxies (resolve : List Char → Bool → Option AddrFamily)
    (file : Option (List (List Char))) (filename : List Char)
    (default_type : ProxyType) (st : Pool) : Pool × Int :=
  match file with
  | Option.none => (st, -1)
  | some lines =>
      let parsed := lines.filterMap fun l => parse_proxy_line resolve l default_type
      let st2 := { del_proxy_all st with
                     proxy_list := parsed, proxy_count := parsed.length }
      if 0 < parsed.length then
        ({ st2 with
             proxy_file := some filename, proxy_default_type := default_type,
             current := Option.none }, Int.ofNat parsed.length)
      else (st2, 0)

/-- Claim C10.  When the proxy file cannot be opened, `load_proxies`
returns −1 with the pool bit-for-bit unchanged (the clear happens only
after a successful open); once the file opens, the old pool is gone —
the resulting list is exactly the parse of the new file — and in
particular a file with zero valid lines leaves an empty pool and
returns 0. -/
theorem load_proxies_failure_behavior (resolve : List Char → Bool → Option AddrFamily)
    (filename : List Char) (dt : ProxyType) (st : Pool) :
    (load_proxies resolve Option.none filename dt st = (st, -1)) ∧
    (∀ lines, (lines.filterMap fun l => parse_proxy_line resolve l dt) = [] →
      (load_proxies resolve (some lines) filename dt st).1.proxy_list = [] ∧
      (load_proxies resolve (some lines) filename dt st).2 = 0) ∧
    (∀ lines, (load_proxies resolve (some lines) filename dt st).1.proxy_list =
      lines.filterMap fun l => parse_proxy_line resolve l dt) := by
  refine ⟨rfl, ?_, ?_⟩
  · intro lines h
    unfold load_proxies
    dsimp only
    rw [h]
    exact ⟨rfl, rfl⟩
  · intro lines
    unfold load_proxies
    dsimp only
    split <;> rfl

/-- Witness for the C10 theorem on a concrete pool, a missing file and
a comment-only file. -/
theorem load_proxies_failure_behavior_witness :
    (load_proxies (fun _ _ => Option.none) Option.none ['f'] ProxyType.NONE samplePool =
      (samplePool, -1)) ∧
    (load_proxies (fun _ _ => Option.none) (some [['#']]) ['f'] ProxyType.NONE
        samplePool).1.proxy_list = [] ∧
    (load_proxies (fun _ _ => Option.none) (some [['#']]) ['f'] ProxyType.NONE
        samplePool).2 = 0 :=
  ⟨(load_proxies_failure_behavior (fun _ _ => Option.none) ['f'] ProxyType.NONE
      samplePool).1,
   (load_proxies_failure_behavior (fun _ _ => Option.none) ['f'] ProxyType.NONE
      samplePool).2.1 [['#']] (by decide)⟩

/-! ## Per-proxy time spent by a validator worker (claim C9)

`open_proxy_socket` (proxy_loader.c:71-159) polls with the REMAINING
connect budget, so one connect attempt is bounded by `timeout_ms`.
The handshake, however, runs over `safe_read_with_timeout` /
`safe_write_with_timeout` with the hard-coded 10-second per-operation
timeout, reset in full at every loop iteration.  The events of the
connect poll loop carry the milliseconds each `poll` blocked; modelled
elapsed time is the sum of all blocking waits (computation time is not
modelled).  The worker running a declared-type SOCKS4 proxy performs
exactly one connect and one write-then-read handshake, which is enough
to settle the claimed bound. -/

/-- Outcome of one iteration of the connect poll loop. -/
inductive ConnEvent
  | pollTimeout
  | pollErrIntr (w : Nat)
  | pollErr (w : Nat)
  | pollSpurious (w : Nat)
  | pollReady (w : Nat) (soErr : Bool)
deriving DecidableEq

/-- The loop at proxy_loader.c:115-158: recompute the remaining
budget, fail when exhausted, poll bounded by the remainder; a ready
socket succeeds unless `SO_ERROR` is set; spurious revents loop.
Returns (connected, elapsed ms). -/
def connect_poll_loop (timeoutMs : Nat) : Nat → List ConnEvent → Bool × Nat
  | elapsed, [] => (false, elapsed)
  | elapsed, e :: evs =>
      if timeoutMs ≤ elapsed then (false, elapsed)
      else
        match e with
        | ConnEvent.pollTimeout => (false, timeoutMs)
        | ConnEvent.pollErrIntr w => connect_poll_loop timeoutMs (elapsed + w) evs
        | ConnEvent.pollErr w => (false, elapsed + w)
        | ConnEvent.pollSpurious w => connect_poll_loop timeoutMs (elapsed + w) evs
        | ConnEvent.pollReady w soErr => (!soErr, elapsed + w)

/-- Feasibility of a connect trace: `poll` is called with the
remaining budget, so no single wait can exceed it. -/
def connWF (timeoutMs : Nat) : Nat → List ConnEvent → Bool
  | _, [] => true
  | elapsed, e :: evs =>
      if timeoutMs ≤ elapsed then true
      else
        match e with
        | ConnEvent.pollTimeout => true
        | ConnEvent.pollErrIntr w =>
            decide (w ≤ timeoutMs - elapsed) && connWF timeoutMs (elapsed + w) evs
        | ConnEvent.pollErr w => decide (w ≤ timeoutMs - elapsed)
        | ConnEvent.pollSpurious w =>
            decide (w ≤ timeoutMs - elapsed) && connWF timeoutMs (elapsed + w) evs
        | ConnEvent.pollReady w _ => decide (w ≤ timeoutMs - elapsed)

/-- Helper: with remaining-budget polls the whole connect attempt is
bounded by the connect timeout. -/
theorem connect_poll_loop_le (timeoutMs : Nat) :
    ∀ (evs : List ConnEvent) (elapsed : Nat), elapsed ≤ timeoutMs →
      connWF timeoutMs elapsed evs = true →
      (connect_poll_loop timeoutMs elapsed evs).2 ≤ timeoutMs := by
  intro evs
  induction evs with
  | nil =>
      intro elapsed he _
      exact he
  | cons e evs ih =>
      intro elapsed he hwf
      unfold connect_poll_loop
      unfold connWF at hwf
      by_cases hto : timeoutMs ≤ elapsed
      · rw [if_pos hto]
        exact he
      · rw [if_neg hto]
        rw [if_neg hto] at hwf
        cases e with
        | pollTimeout =>
            dsimp only
            exact Nat.le_refl _
        | pollErrIntr w =>
            dsimp only at hwf ⊢
            simp only [Bool.and_eq_true, decide_eq_true_eq] at hwf
            exact ih (elapsed + w) (by omega) hwf.2
        | pollErr w =>
            dsimp only at hwf ⊢
            simp only [decide_eq_true_eq] at hwf
            omega
        | pollSpurious w =>
            dsimp only at hwf ⊢
            simp only [Bool.and_eq_true, decide_eq_true_eq] at hwf
            exact ih (elapsed + w) (by omega) hwf.2
        | pollReady w soErr =>
            dsimp only at hwf ⊢
            simp only [decide_eq_true_eq] at hwf
            omega

/-- `open_proxy_socket`: an immediate connect success
(proxy_loader.c:105-109) waits for nothing; EINPROGRESS enters the
poll loop. -/
def open_proxy_socket_run (timeoutMs : Nat) (immediate : Bool)
    (evs : List ConnEvent) : Bool × Nat :=
  if immediate then (true, 0) else connect_poll_loop timeoutMs 0 evs

/-- Length of the SOCKS4 request (proxy.c:1047-1058): 8 fixed bytes,
the userid when non-empty, one terminating zero. -/
def socks4_request_len (userid : Option (List Char)) : Nat :=
  8 + (match userid with
       | some u => if u.isEmpty then 0 else u.length
       | Option.none => 0) + 1

/-- Wall-clock of `socks4_connect` handshake I/O
(proxy.c:1060-1082): the timed write of the request, then — when it
delivered every byte — the timed read of the 8-byte reply, each with
the hard-coded 10 s per-poll timeout. -/
def socks4_io_run (reqLen : Nat) (wT rT : List RWEvent) : Bool × Nat :=
  if (safeWriteRun reqLen 10000 0 0 wT).1 ≠ Int.ofNat reqLen then
    (false, (safeWriteRun reqLen 10000 0 0 wT).2)
  else if (safeReadRun 8 10000 0 0 rT).1 ≠ 8 then
    (false, (safeWriteRun reqLen 10000 0 0 wT).2 + (safeReadRun 8 10000 0 0 rT).2)
  else (true, (safeWriteRun reqLen 10000 0 0 wT).2 + (safeReadRun 8 10000 0 0 rT).2)

/-- Modelled waiting time a validator worker spends on one proxy whose
declared type is SOCKS4 (attempt list = [SOCKS4], proxy_loader.c:262-299):
one connect attempt, and on connect success one handshake; a connect
failure breaks the loop. -/
def worker_socks4_elapsed (timeoutMs : Nat) (userid : Option (List Char))
    (immediate : Bool) (cT : List ConnEvent) (wT rT : List RWEvent) : Nat :=
  if (open_proxy_socket_run timeoutMs immediate cT).1 then
    (open_proxy_socket_run timeoutMs immediate cT).2 +
      (socks4_io_run (socks4_request_len userid) wT rT).2
  else (open_proxy_socket_run timeoutMs immediate cT).2

/-- Helper: the handshake I/O of one SOCKS4 attempt is bounded by the
10 s per-operation timeout times its poll iterations. -/
theorem socks4_io_run_le (reqLen : Nat) (wT rT : List RWEvent)
    (hw : rwWF 10000 wT) (hr : rwWF 10000 rT) :
    (socks4_io_run reqLen wT rT).2 ≤ 10000 * wT.length + 10000 * rT.length := by
  have hW := safeWriteRun_elapsed_le reqLen 10000 wT 0 0 hw
  have hR := safeReadRun_elapsed_le 8 10000 rT 0 0 hr
  unfold socks4_io_run
  split
  · omega
  · split <;> omega

/-- Claim C9, counterexample.  With the sweep timeout at 5000 ms and
the hard-coded 10 s handshake timeout, a single declared-SOCKS4 proxy
whose server trickles the 8-byte reply one byte per 9-second poll
keeps its worker busy for 72 s of waiting — more than the claimed
connect + 3 handshake budgets (35 s) — on a feasible trace. -/
theorem worker_timeout_bound_cex :
    connWF 5000 0 [ConnEvent.pollReady 0 false] = true ∧
    rwWF 10000 [RWEvent.ready 0 (SysRes.bytes 9)] ∧
    rwWF 10000 (List.replicate 8 (RWEvent.ready 9000 (SysRes.bytes 1))) ∧
    worker_socks4_elapsed 5000 Option.none false [ConnEvent.pollReady 0 false]
      [RWEvent.ready 0 (SysRes.bytes 9)]
      (List.replicate 8 (RWEvent.ready 9000 (SysRes.bytes 1))) = 72000 ∧
    5000 + 3 * 10000 < 72000 := by
  refine ⟨by decide, by decide, by decide, by decide, by decide⟩

/-- Claim C9, amended.  A worker spends at most the connect timeout on
the connect attempt of a declared-SOCKS4 proxy (the connect poll uses
the remaining budget) plus 10 seconds per readiness-poll iteration of
the handshake I/O; since a trickling peer forces one poll per byte,
the per-proxy time is bounded by `timeout_ms + 10 s × polls`, not by
`connect_timeout_ms + 3 × handshake_timeout_ms`. -/
theorem worker_socks4_elapsed_bound (timeoutMs : Nat) (userid : Option (List Char))
    (immediate : Bool) (cT : List ConnEvent) (wT rT : List RWEvent)
    (hc : connWF timeoutMs 0 cT = true) (hw : rwWF 10000 wT) (hr : rwWF 10000 rT) :
    worker_socks4_elapsed timeoutMs userid immediate cT wT rT ≤
      timeoutMs + 10000 * (wT.length + rT.length) := by
  have hce : (open_proxy_socket_run timeoutMs immediate cT).2 ≤ timeoutMs := by
    unfold open_proxy_socket_run
    split
    · exact Nat.zero_le _
    · exact connect_poll_loop_le timeoutMs cT 0 (Nat.zero_le _) hc
  have hio := socks4_io_run_le (socks4_request_len userid) wT rT hw hr
  unfold worker_socks4_elapsed
  split <;> omega

/-- Witness for the amended C9 theorem at a concrete fast trace. -/
theorem worker_socks4_elapsed_bound_witness :
    worker_socks4_elapsed 5000 Option.none true [] [RWEvent.ready 1 (SysRes.bytes 9)]
        [RWEvent.ready 2 (SysRes.bytes 8)] ≤
      5000 + 10000 *
        (([RWEvent.ready 1 (SysRes.bytes 9)] : List RWEvent).length +
          ([RWEvent.ready 2 (SysRes.bytes 8)] : List RWEvent).length) :=
  worker_socks4_elapsed_bound 5000 Option.none true [] [RWEvent.ready 1 (SysRes.bytes 9)]
    [RWEvent.ready 2 (SysRes.bytes 8)] (by decide) (by decide) (by decide)

end Enemy
